import Mathlib

/-!
Verification development for the mrt-meds repository: a shallow embedding of
the connection/session/lock coordination layer, the expiry/stock read helpers
and the backup/restore service, with theorems settling the documented claims.

Times are modelled as integer milliseconds (the value of Date.getTime), and
every place the source reads the wall clock via new Date() takes an explicit
now parameter.  JavaScript Map objects are modelled as association lists keyed
by strings, with set/delete as ainsert/aerase.
-/

namespace MrtMeds

/-! ## Identifier validation (services/db/connectionManager.ts and
    services/db/concurrencyManager.ts, validateSessionId and
    validateOperationName) -/

/-- A character accepted by the regex [a-zA-Z0-9\-_] of the validators. -/
def isIdChar (c : Char) : Bool :=
  c.isAlphanum || c = '-' || c = '_'

/-- validateSessionId: non-empty, 10 to 100 characters, restricted charset.
    The source throws on violation; we model the check as a Bool, reading the
    string as its character list (over this charset the JavaScript length
    equals the character count). -/
def validSessionId (s : String) : Bool :=
  if s.data.isEmpty then false
  else if s.data.length < 10 ∨ s.data.length > 100 then false
  else s.data.all isIdChar

/-- validateOperationName: non-empty, 1 to 50 characters, restricted charset. -/
def validOperationName (s : String) : Bool :=
  if s.data.isEmpty then false
  else if s.data.length < 1 ∨ s.data.length > 50 then false
  else s.data.all isIdChar

/-! ## Association-list model of JavaScript Map -/

/-- Map lookup (Map.get). -/
def alookup {α : Type} : List (String × α) → String → Option α
  | [], _ => none
  | (k, v) :: t, k₀ => if k₀ = k then some v else alookup t k₀

/-- Map key removal (Map.delete). -/
def aerase {α : Type} : List (String × α) → String → List (String × α)
  | [], _ => []
  | (k, v) :: t, k₀ => if k₀ = k then aerase t k₀ else (k, v) :: aerase t k₀

/-- Map insertion/replacement (Map.set). -/
def ainsert {α : Type} (l : List (String × α)) (k : String) (v : α) :
    List (String × α) :=
  (k, v) :: aerase l k

/-- Number of entries stored under a key (at most one for any list built
    with ainsert/aerase). -/
def acount {α : Type} : List (String × α) → String → Nat
  | [], _ => 0
  | (k, _) :: t, k₀ => (if k₀ = k then 1 else 0) + acount t k₀

/-! ## Error taxonomy

The source throws Error objects distinguished only by message; the
constructors below correspond one-to-one to the distinct throw sites the
claims are about. -/

inductive DbError where
  | invalidSessionId
  | invalidOperationName
  | lockHeld (operation : String)
  | resourceExhausted
  | connectionFailed (msg : String)
deriving DecidableEq

/-- Discriminates success from failure of an Except result. -/
def exceptOk {ε α : Type} : Except ε α → Bool
  | .ok _ => true
  | .error _ => false

/-! ## Operation lock manager (services/db/concurrencyManager.ts) -/

structure OperationLock where
  id : String
  operation : String
  timestamp : Int
  sessionId : String
deriving DecidableEq

/-- The ConcurrencyManager lock table (Map keyed by operation name). -/
abbrev LockTable := List (String × OperationLock)

/-- lockTimeout = 5 * 60 * 1000. -/
def lockTimeoutMs : Int := 5 * 60 * 1000

/-- isLockValid: a lock younger than the timeout. -/
def isLockValid (now : Int) (lock : OperationLock) : Bool :=
  decide (now - lock.timestamp < lockTimeoutMs)

/-- cleanupExpiredLocks: drop every expired lock. -/
def cleanupExpiredLocks (now : Int) (locks : LockTable) : LockTable :=
  locks.filter (fun p => isLockValid now p.2)

/-- The lock id minted by acquireLock. -/
def mkLockId (operation sessionId : String) (now : Int) : String :=
  operation ++ "-" ++ sessionId ++ "-" ++ toString now

/-- ConcurrencyManager.acquireLock.  Validates both identifiers, fails with
    lockHeld when a valid lock for the operation is owned by a different
    session, and otherwise purges expired locks and installs a fresh lock. -/
def acquireLock (operation sessionId : String) (now : Int) (locks : LockTable) :
    Except DbError (String × LockTable) :=
  if !validOperationName operation then .error .invalidOperationName
  else if !validSessionId sessionId then .error .invalidSessionId
  else
    let lockId := mkLockId operation sessionId now
    let held : Bool :=
      match alookup locks operation with
      | some l => isLockValid now l && l.sessionId != sessionId
      | none => false
    if held then .error (.lockHeld operation)
    else
      let locks₁ := cleanupExpiredLocks now locks
      .ok (lockId, ainsert locks₁ operation ⟨lockId, operation, now, sessionId⟩)

/-- ConcurrencyManager.releaseLock: removes the lock only when currently held
    by the releasing session, otherwise a no-op. -/
def releaseLock (operation sessionId : String) (locks : LockTable) :
    Except DbError LockTable :=
  if !validOperationName operation then .error .invalidOperationName
  else if !validSessionId sessionId then .error .invalidSessionId
  else
    match alookup locks operation with
    | some l => if l.sessionId = sessionId then .ok (aerase locks operation) else .ok locks
    | none => .ok locks

/-! ## Connection pool (services/db/connectionManager.ts)

The pool is an instance of ConnectionManager: a Map from session ids to
DatabaseConnection records, plus the memoized initialization promise.  The
underlying store handle (a Dexie database object) carries no state the claims
depend on, so the connection record keeps the remaining fields. -/

structure DatabaseConnection where
  id : String
  isInitialized : Bool
  lastActivity : Int
  sessionId : String
deriving DecidableEq

/-- maxConnections = 10. -/
def maxConnections : Nat := 10

/-- connectionTimeout = 30 * 60 * 1000. -/
def connectionTimeoutMs : Int := 30 * 60 * 1000

/-- The store-open timeout raced against db.open() (10000 ms). -/
def openTimeoutMs : Int := 10000

/-- isConnectionValid: activity younger than the connection timeout. -/
def isConnectionValid (now : Int) (c : DatabaseConnection) : Bool :=
  decide (now - c.lastActivity < connectionTimeoutMs)

/-- cleanupExpiredConnections: drop every expired connection. -/
def cleanupExpiredConnections (now : Int)
    (conns : List (String × DatabaseConnection)) :
    List (String × DatabaseConnection) :=
  conns.filter (fun p => isConnectionValid now p.2)

/-- The environment a store open runs in: whether window.indexedDB exists,
    whether db.open() resolves successfully, and after how many milliseconds
    it settles (performInitialization races it against a timer of
    openTimeoutMs, so an open settling later than the timer surfaces as the
    timeout error). -/
structure InitEnv where
  indexedDBSupported : Bool
  openOk : Bool
  openTimeMs : Int
deriving DecidableEq

/-- The open settles before the racing timer fires. -/
def openWithinTimeout (env : InitEnv) : Bool :=
  decide (env.openTimeMs < openTimeoutMs)

/-- performInitialization reaches initializeDefaults and completes: the
    browser supports IndexedDB and db.open() resolves before the timer.
    initializeDefaults itself catches internally and never rejects. -/
def initSucceeds (env : InitEnv) : Bool :=
  env.indexedDBSupported && openWithinTimeout env && env.openOk

/-- The wrapped message thrown by performInitialization on failure. -/
def initFailureMsg (env : InitEnv) : String :=
  if !env.indexedDBSupported then
    "Database initialization failed: IndexedDB is not supported in this browser/environment"
  else if !openWithinTimeout env then
    "Database initialization failed: Database connection timeout"
  else
    "Database initialization failed: database open error"

/-- Sequential (single-caller) state of the ConnectionManager: the connection
    Map, whether a fulfilled memoized initialization promise exists
    (initializationPromise, which at rest is either null or fulfilled), and a
    ghost counter of performInitialization invocations used to state
    once-only properties. -/
structure PoolState where
  connections : List (String × DatabaseConnection)
  initDone : Bool
  runs : Nat
deriving DecidableEq

/-- The tail of getConnection once no valid connection exists for the
    session: cleanupExpiredConnections, the capacity check, creation of the
    new connection, and initializeConnection / performInitialization (whose
    outcome is determined by env).  On failure the partially-created
    connection is deleted and the memoized promise reset before the error
    propagates. -/
def acquireFresh (sessionId connId : String) (now : Int) (env : InitEnv)
    (st : PoolState) : Except DbError DatabaseConnection × PoolState :=
  let conns₁ := cleanupExpiredConnections now st.connections
  if maxConnections ≤ conns₁.length then
    (.error .resourceExhausted, { st with connections := conns₁ })
  else
    let conn : DatabaseConnection := ⟨connId, false, now, sessionId⟩
    let conns₂ := ainsert conns₁ sessionId conn
    if st.initDone then
      let conn' := { conn with isInitialized := true }
      (.ok conn', { st with connections := ainsert conns₂ sessionId conn' })
    else if initSucceeds env then
      let conn' := { conn with isInitialized := true }
      (.ok conn',
        { connections := ainsert conns₂ sessionId conn', initDone := true,
          runs := st.runs + 1 })
    else
      (.error (.connectionFailed (initFailureMsg env)),
        { connections := aerase conns₂ sessionId, initDone := false,
          runs := st.runs + 1 })

/-- ConnectionManager.getConnection, sequential model: validate the session
    id, return a refreshed existing valid connection, otherwise acquire a
    fresh one. -/
def getConnection (sessionId connId : String) (now : Int) (env : InitEnv)
    (st : PoolState) : Except DbError DatabaseConnection × PoolState :=
  if !validSessionId sessionId then (.error .invalidSessionId, st)
  else
    match alookup st.connections sessionId with
    | some c =>
      if isConnectionValid now c then
        let c' := { c with lastActivity := now }
        (.ok c', { st with connections := ainsert st.connections sessionId c' })
      else acquireFresh sessionId connId now env st
    | none => acquireFresh sessionId connId now env st

/-! ## Asynchronous (interleaved) model of getConnection

JavaScript runs each async function atomically between awaits.  A first-time
getConnection call runs synchronously through validation, cleanup, the
capacity check, connection creation and the check-and-set of the shared
initializationPromise inside initializeConnection, and then suspends awaiting
that promise.  performInitialization is the body of the promise: it captures
the connection of the caller that created the promise (the initiator) and, on
failure, deletes only that connection before rejecting.  Promises are
numbered; runs counts performInitialization invocations. -/

structure AsyncPoolState where
  connections : List (String × DatabaseConnection)
  initPromiseId : Option Nat
  initiator : Option String
  nextPromiseId : Nat
  runs : Nat
deriving DecidableEq

/-- The fresh-connection part of the synchronous segment of getConnection:
    cleanup, capacity check, insertion of the new connection, and joining or
    creating the shared initialization promise.  Returns the promise id the
    caller suspends on (none when the call ended synchronously). -/
def syncFresh (sessionId connId : String) (now : Int) (st : AsyncPoolState) :
    Option Nat × AsyncPoolState :=
  let conns₁ := cleanupExpiredConnections now st.connections
  if maxConnections ≤ conns₁.length then
    (none, { st with connections := conns₁ })
  else
    let conn : DatabaseConnection := ⟨connId, false, now, sessionId⟩
    let conns₂ := ainsert conns₁ sessionId conn
    match st.initPromiseId with
    | some p => (some p, { st with connections := conns₂ })
    | none =>
      (some st.nextPromiseId,
        { connections := conns₂, initPromiseId := some st.nextPromiseId,
          initiator := some sessionId, nextPromiseId := st.nextPromiseId + 1,
          runs := st.runs + 1 })

/-- The synchronous segment of a getConnection call, up to the await of the
    shared initialization promise. -/
def syncAcquire (sessionId connId : String) (now : Int) (st : AsyncPoolState) :
    Option Nat × AsyncPoolState :=
  if !validSessionId sessionId then (none, st)
  else
    match alookup st.connections sessionId with
    | some c =>
      if isConnectionValid now c then
        let c' := { c with lastActivity := now }
        (none, { st with connections := ainsert st.connections sessionId c' })
      else syncFresh sessionId connId now st
    | none => syncFresh sessionId connId now st

/-- Settlement of the in-flight initialization promise.  On success the
    promise stays fulfilled.  On failure performInitialization deletes only
    the initiator connection it captured and resets initializationPromise so
    a later acquire retries. -/
def resolveInit (ok : Bool) (st : AsyncPoolState) : AsyncPoolState :=
  if ok then st
  else
    { st with
      connections :=
        match st.initiator with
        | some s => aerase st.connections s
        | none => st.connections,
      initPromiseId := none, initiator := none }

/-- What a caller does after its await of the shared promise resumes: on
    fulfillment it marks its connection initialized (mutating the object the
    Map still references, when present) and returns it; on rejection the
    error propagates with no further cleanup in that caller. -/
def postAwait (ok : Bool) (conn : DatabaseConnection) (st : AsyncPoolState) :
    Except DbError DatabaseConnection × AsyncPoolState :=
  if ok then
    let c' := { conn with isInitialized := true }
    (.ok c',
      { st with connections :=
          match alookup st.connections conn.sessionId with
          | some _ => ainsert st.connections conn.sessionId c'
          | none => st.connections })
  else
    (.error (.connectionFailed "Database initialization failed: database open error"), st)

/-- Runs the synchronous segments of a batch of concurrent first-time
    getConnection calls in order, recording the promise id each caller
    suspends on. -/
def runBatch (mkConnId : String → String) (now : Int) (sids : List String)
    (st : AsyncPoolState) : List (String × Option Nat) × AsyncPoolState :=
  match sids with
  | [] => ([], st)
  | sid :: rest =>
    let r₁ := syncAcquire sid (mkConnId sid) now st
    let r₂ := runBatch mkConnId now rest r₁.2
    ((sid, r₁.1) :: r₂.1, r₂.2)

/-! ## Domain records (types/index.ts), reduced to the fields the verified
    helpers read.  Stock quantities and thresholds are JavaScript numbers;
    they are modelled in ℚ where fractional thresholds (min * 0.5, min * 1.5)
    occur, and dates as integer millisecond timestamps. -/

structure MedicineR where
  id : String
  name : String
  minStock : ℚ
  maxStock : ℚ
deriving DecidableEq

structure BatchR where
  id : String
  medicineId : String
  lotNumber : String
  quantity : Int
  expiryDate : Int
  receivedDate : Int
deriving DecidableEq

structure ItemR where
  id : String
  batchId : String
  medicineId : String
  status : String
deriving DecidableEq

structure LocationR where
  id : String
  name : String
deriving DecidableEq

structure MovementR where
  id : String
  timestamp : Int
deriving DecidableEq

/-! ## Expiry classification (hooks/useExpiry.ts getExpiryStatus and the
    inline classifier of getExpiringMedicines in the Backup KitsPage) -/

/-- Milliseconds per day (1000 * 60 * 60 * 24). -/
def msPerDay : Int := 1000 * 60 * 60 * 24

/-- Math.floor((expiry - now) / msPerDay) on millisecond timestamps:
    floor division, rounding toward minus infinity. -/
def daysBetween (expiry now : Int) : Int := (expiry - now).fdiv msPerDay

inductive ExpiryTag where
  | expired
  | critical
  | warning
  | good
deriving DecidableEq

/-- daysUntilExpiry is a JavaScript number that the no-date branch sets to
    Infinity; the sentinel is modelled as a dedicated constructor. -/
inductive ExpiryDays where
  | days (d : Int)
  | unbounded
deriving DecidableEq

structure ExpiryStatusR where
  status : ExpiryTag
  daysUntilExpiry : ExpiryDays
  color : String
  message : String
deriving DecidableEq

/-- getExpiryStatus from useExpiry: no date means good with the unbounded
    sentinel; otherwise the expired/critical/warning/good chain over the
    floored day difference. -/
def getExpiryStatus (expiryDate : Option Int) (now : Int) : ExpiryStatusR :=
  match expiryDate with
  | none =>
    ⟨.good, .unbounded, "text-gray-500", "No expiry date"⟩
  | some e =>
    let d := daysBetween e now
    if d < 0 then
      ⟨.expired, .days d, "text-red-800 bg-red-100",
        "Expired " ++ toString d.natAbs ++ " days ago"⟩
    else if d ≤ 30 then
      ⟨.critical, .days d, "text-red-600 bg-red-50",
        "Expires in " ++ toString d ++ " days"⟩
    else if d ≤ 60 then
      ⟨.warning, .days d, "text-yellow-600 bg-yellow-50",
        "Expires in " ++ toString d ++ " days"⟩
    else
      ⟨.good, .days d, "text-green-600 bg-green-50",
        "Expires in " ++ toString d ++ " days"⟩

/-! ## Stock classification: the two call sites -/

inductive KitStockStatus where
  | critical
  | low
  | excess
  | ok
deriving DecidableEq

/-- The classification chain of getStockLevels (Backup KitsPage): default ok,
    then critical at min * 0.5, low at min, excess above max. -/
def kitStockStatus (currentStock minStock maxStock : ℚ) : KitStockStatus :=
  if currentStock ≤ minStock * (0.5 : ℚ) then .critical
  else if currentStock ≤ minStock then .low
  else if currentStock > maxStock then .excess
  else .ok

/-- getMedicineStock (Backup KitsPage): count of available items for the
    medicine. -/
def getMedicineStock (items : List ItemR) (medicineId : String) : Nat :=
  (items.filter (fun it => it.medicineId == medicineId &&
    it.status == "available")).length

structure StockLevel where
  medicineId : String
  medicineName : String
  currentStock : ℚ
  minStock : ℚ
  maxStock : ℚ
  status : KitStockStatus
  percentage : ℚ
deriving DecidableEq

/-- getStockLevels (Backup KitsPage): current stock, percentage of max and
    the status chain, per medicine. -/
def getStockLevels (medicines : List MedicineR) (items : List ItemR) :
    List StockLevel :=
  medicines.map (fun m =>
    let currentStock : ℚ := (getMedicineStock items m.id : ℚ)
    let percentage : ℚ :=
      if m.maxStock > 0 then currentStock / m.maxStock * 100 else 0
    ⟨m.id, m.name, currentStock, m.minStock, m.maxStock,
      kitStockStatus currentStock m.minStock m.maxStock, percentage⟩)

inductive ReportStockStatus where
  | outOfStock
  | critical
  | low
  | good
deriving DecidableEq

/-- The classification chain of generateStockLevelReport
    (utils/reportGenerator.ts): out of stock at zero, critical below plain
    min, low below min * 1.5, with no excess label and no use of maxStock. -/
def reportStockStatus (currentStock minStock : ℚ) : ReportStockStatus :=
  if currentStock = 0 then .outOfStock
  else if currentStock < minStock then .critical
  else if currentStock < minStock * (1.5 : ℚ) then .low
  else .good

/-- Stock per medicine in the report: sum of batch quantities (the source
    accumulates the same sums into a Map keyed by medicineId first). -/
def reportCurrentStock (batches : List BatchR) (medicineId : String) : ℚ :=
  ((((batches.filter (fun b => b.medicineId == medicineId)).map
    (fun b => b.quantity)).sum : Int) : ℚ)

/-- The rows of generateStockLevelReport, reduced to name, status and the
    reorderNeeded flag (the source also emits display columns and sorts the
    rows by status priority). -/
def generateStockLevelRows (medicines : List MedicineR)
    (batches : List BatchR) : List (String × ReportStockStatus × Bool) :=
  medicines.map (fun m =>
    let currentStock := reportCurrentStock batches m.id
    (m.name, reportStockStatus currentStock m.minStock,
      decide (currentStock < m.minStock)))

/-! ## Nearest expiry and expiring medicines -/

/-- The nearest expiry across a medicine's batches (hooks/useMedicines.ts): a
    reduce over all batches starting from the first batch's date; absent when
    the medicine has no batches. -/
def nearestExpiry (batches : List BatchR) : Option Int :=
  match batches with
  | [] => none
  | b :: rest =>
    some ((b :: rest).foldl
      (fun nearest batch =>
        if batch.expiryDate < nearest then batch.expiryDate else nearest)
      b.expiryDate)

inductive KitExpiryTag where
  | expired
  | critical
  | warning
  | ok
deriving DecidableEq

structure ExpiringEntry where
  medicine : MedicineR
  batch : BatchR
  items : List ItemR
  status : KitExpiryTag
  daysUntilExpiry : Int
  expiryDate : Int
deriving DecidableEq

/-- The inline classifier of getExpiringMedicines (Backup KitsPage): default
    ok, then the expired/critical/warning chain over the day difference. -/
def kitExpiryStatusOf (d : Int) : KitExpiryTag :=
  if d < 0 then .expired
  else if d ≤ 30 then .critical
  else if d ≤ 60 then .warning
  else .ok

/-- Stable ascending insertion by daysUntilExpiry, modelling the final
    Array.sort with the numeric comparator. -/
def insertByDays (x : ExpiringEntry) : List ExpiringEntry → List ExpiringEntry
  | [] => [x]
  | y :: t =>
    if x.daysUntilExpiry ≤ y.daysUntilExpiry then x :: y :: t
    else y :: insertByDays x t

def sortByDays (l : List ExpiringEntry) : List ExpiringEntry :=
  l.foldr insertByDays []

/-- getExpiringMedicines (Backup KitsPage): batches with expiry at or before
    the cutoff (daysAhead days from now, day stepping modelled in
    milliseconds), joined to their medicine and available items, classified
    and sorted by days until expiry. -/
def getExpiringMedicines (medicines : List MedicineR) (batches : List BatchR)
    (items : List ItemR) (daysAhead : Int) (now : Int) : List ExpiringEntry :=
  let cutoff := now + daysAhead * msPerDay
  let expiringBatches :=
    batches.filter (fun b => decide (b.expiryDate ≤ cutoff))
  let results := expiringBatches.filterMap (fun b =>
    match medicines.find? (fun m => m.id == b.medicineId) with
    | none => none
    | some med =>
      let its := items.filter (fun it => it.batchId == b.id &&
        it.status == "available")
      if its.isEmpty then none
      else
        let d := daysBetween b.expiryDate now
        some ⟨med, b, its, kitExpiryStatusOf d, d, b.expiryDate⟩)
  sortByDays results

/-! ## Backup and restore (services/backupService.ts)

The database is modelled as its five exported tables; Dexie table.add
rejects a record whose primary key already exists, which is the only store
behavior the claims depend on.  The parsed-JSON view of a backup file keeps,
for each field the validator or importer inspects, whether it is absent, a
truthy non-array value, or an array (absent also stands for present falsy
values, which the truthiness checks treat alike). -/

structure Db where
  medicines : List MedicineR
  batches : List BatchR
  items : List ItemR
  locations : List LocationR
  movements : List MovementR
deriving DecidableEq

def emptyDb : Db := ⟨[], [], [], [], []⟩

/-- Dexie table.add: rejects on an existing primary key. -/
def tableAdd {α : Type} (key : α → String) (t : List α) (x : α) :
    Option (List α) :=
  if t.any (fun y => key y == key x) then none else some (t ++ [x])

structure BackupMetadata where
  medicineCount : Nat
  batchCount : Nat
  itemCount : Nat
  locationCount : Nat
  movementCount : Nat
deriving DecidableEq

structure BackupData where
  version : String
  exportDate : Int
  exportedBy : String
  medicines : List MedicineR
  batches : List BatchR
  items : List ItemR
  locations : List LocationR
  movements : List MovementR
  metadata : BackupMetadata
deriving DecidableEq

/-- exportDatabase: serialize the tables (movements only on request) with
    count metadata. -/
def exportDatabase (includeMovements : Bool) (now : Int) (db : Db) :
    BackupData :=
  let movements := if includeMovements then db.movements else []
  { version := "1.0.0", exportDate := now,
    exportedBy := "DFMRT Medicine Tracker v0.1.20",
    medicines := db.medicines, batches := db.batches, items := db.items,
    locations := db.locations, movements := movements,
    metadata := ⟨db.medicines.length, db.batches.length, db.items.length,
      db.locations.length, movements.length⟩ }

inductive JsonField (α : Type) where
  | missing
  | scalar
  | array (xs : List α)
deriving DecidableEq

/-- JavaScript truthiness of the field. -/
def JsonField.truthy {α : Type} : JsonField α → Bool
  | .missing => false
  | _ => true

/-- Array.isArray of the field. -/
def JsonField.isArr {α : Type} : JsonField α → Bool
  | .array _ => true
  | _ => false

structure CriticalBatch where
  lotNumber : String
  quantity : Int
  expiryDate : Int
  receivedDate : Int
deriving DecidableEq

structure CriticalEntry where
  name : String
  minStock : ℚ
  maxStock : ℚ
  batches : List CriticalBatch
deriving DecidableEq

/-- The parsed-JSON view of a backup file: version records the truthiness of
    the version field, exportType a present truthy string. -/
structure RawBackup where
  version : Bool
  exportType : Option String
  medicines : JsonField MedicineR
  batches : JsonField BatchR
  items : JsonField ItemR
  locations : JsonField LocationR
  movements : JsonField MovementR
  data : JsonField CriticalEntry
deriving DecidableEq

/-- validateBackupFile: requires version or exportType and some medicine
    data; present medicines/batches fields must be arrays. -/
def validateBackupFile (b : RawBackup) : Bool × List String :=
  let errors : List String := []
  let errors := if !b.version && b.exportType.isNone then
    errors ++ ["Missing version or export type"] else errors
  let errors := if !b.medicines.truthy && !b.data.truthy then
    errors ++ ["No medicine data found in backup"] else errors
  let errors := if b.medicines.truthy && !b.medicines.isArr then
    errors ++ ["Medicines must be an array"] else errors
  let errors := if b.batches.truthy && !b.batches.isArr then
    errors ++ ["Batches must be an array"] else errors
  (errors.isEmpty, errors)

structure ImportCounts where
  medicines : Nat
  batches : Nat
  items : Nat
  locations : Nat
  movements : Nat
deriving DecidableEq

/-- The import summary; errors empty models the undefined errors field. -/
structure ImportResult where
  success : Bool
  message : String
  imported : Option ImportCounts
  errors : List String
deriving DecidableEq

/-- The early rejection of importDatabase on a missing version or missing
    medicine data (it happens before any clear or write). -/
def invalidFormatResult : ImportResult :=
  { success := false, message := "Invalid backup file format",
    imported := none, errors := ["Missing required fields in backup file"] }

/-- The outer catch of importDatabase, reached in the model when a truthy
    non-array field is iterated. -/
def parseFailResult : ImportResult :=
  { success := false, message := "Failed to parse backup file",
    imported := none, errors := ["Invalid JSON format"] }

/-- The summary returned after the record loops. -/
def mkImportResult (errs : List String) (counts : ImportCounts) :
    ImportResult :=
  { success := errs.isEmpty,
    message := if errs.isEmpty then "Database imported successfully"
      else "Import completed with " ++ toString errs.length ++ " errors",
    imported := some counts,
    errors := errs }

/-- One per-record import loop: each add failure is collected as an error
    message and the loop continues with the remaining records. -/
def importLoop {α β : Type} (key : β → String) (conv : α → β)
    (errMsg : α → String) (xs : List α) (t : List β) (cnt : Nat)
    (errs : List String) : List β × Nat × List String :=
  match xs with
  | [] => (t, cnt, errs)
  | x :: rest =>
    match tableAdd key t (conv x) with
    | some t' => importLoop key conv errMsg rest t' (cnt + 1) errs
    | none => importLoop key conv errMsg rest t cnt (errs ++ [errMsg x])

/-- The spread-and-convert of an imported batch; the Date round-trip is the
    identity on millisecond timestamps. -/
def convImportedBatch (b : BatchR) : BatchR :=
  ⟨b.id, b.medicineId, b.lotNumber, b.quantity, b.expiryDate, b.receivedDate⟩

/-- The spread-and-convert of an imported movement. -/
def convImportedMovement (m : MovementR) : MovementR := ⟨m.id, m.timestamp⟩

/-- One optional-table stage of the full-format import: a missing field is
    skipped, a truthy non-array raises when iterated (none, caught by the
    outer handler), an array runs the per-record loop. -/
def importTableStage {α β : Type} (key : β → String) (conv : α → β)
    (errMsg : α → String) (f : JsonField α) (t : List β)
    (errs : List String) : Option (List β × Nat × List String) :=
  match f with
  | .missing => some (t, 0, errs)
  | .scalar => none
  | .array xs => some (importLoop key conv errMsg xs t 0 errs)

/-- The batch loop inside one critical-format entry: there is no per-batch
    catch, so the first failing add aborts the remaining batches of the
    entry while the batches already added stay. -/
def addCritBatches (gen : Nat → String) (medId : String)
    (bs : List CriticalBatch) (t : List BatchR) (n cnt : Nat) :
    List BatchR × Nat × Nat × Bool :=
  match bs with
  | [] => (t, n, cnt, true)
  | b :: rest =>
    match tableAdd (fun x => x.id) t
        ⟨gen n, medId, b.lotNumber, b.quantity, b.expiryDate,
          b.receivedDate⟩ with
    | some t' => addCritBatches gen medId rest t' (n + 1) (cnt + 1)
    | none => (t, n + 1, cnt, false)

/-- The critical-format entry loop with its per-entry try/catch; gen
    supplies the minted record ids. -/
def importCriticalLoop (gen : Nat → String) (entries : List CriticalEntry)
    (meds : List MedicineR) (bats : List BatchR) (n medCnt batchCnt : Nat)
    (errs : List String) :
    List MedicineR × List BatchR × Nat × Nat × List String :=
  match entries with
  | [] => (meds, bats, medCnt, batchCnt, errs)
  | e :: rest =>
    let medId := gen n
    match tableAdd (fun m => m.id) meds
        ⟨medId, e.name, e.minStock, e.maxStock⟩ with
    | some meds' =>
      match addCritBatches gen medId e.batches bats (n + 1) batchCnt with
      | (bats', n', batchCnt', ok) =>
        if ok then
          importCriticalLoop gen rest meds' bats' n' (medCnt + 1) batchCnt'
            errs
        else
          importCriticalLoop gen rest meds' bats' n' (medCnt + 1) batchCnt'
            (errs ++ ["Failed to import medicine: " ++ e.name])
    | none =>
      importCriticalLoop gen rest meds bats (n + 1) medCnt batchCnt
        (errs ++ ["Failed to import medicine: " ++ e.name])

/-- importDatabase: the early validation (before any clear or write), the
    optional wipe, then the critical-format branch or the full-format
    branch; per-record failures are collected, not thrown. -/
def importDatabase (gen : Nat → String) (b : RawBackup)
    (clearExisting : Bool) (db₀ : Db) : ImportResult × Db :=
  if !b.version || (!b.medicines.truthy && !b.data.truthy) then
    (invalidFormatResult, db₀)
  else
    let db := if clearExisting then emptyDb else db₀
    if b.exportType == some "critical" && b.data.truthy then
      match b.data with
      | .array entries =>
        match importCriticalLoop gen entries db.medicines db.batches
            0 0 0 [] with
        | (meds, bats, medCnt, batchCnt, errs) =>
          (mkImportResult errs ⟨medCnt, batchCnt, 0, 0, 0⟩,
            { db with medicines := meds, batches := bats })
      | _ => (parseFailResult, db)
    else if b.medicines.truthy then
      match b.medicines with
      | .array meds =>
        match importLoop (fun m => m.id) (fun m => m)
            (fun m => "Failed to import medicine: " ++ m.name) meds
            db.medicines 0 [] with
        | (medsT, medCnt, errs₁) =>
          match importTableStage (fun x => x.id) convImportedBatch
              (fun x => "Failed to import batch: " ++ x.lotNumber) b.batches
              db.batches errs₁ with
          | none => (parseFailResult, { db with medicines := medsT })
          | some (batsT, batchCnt, errs₂) =>
            match importTableStage (fun x => x.id) (fun x => x)
                (fun x => "Failed to import item: " ++ x.id) b.items
                db.items errs₂ with
            | none =>
              (parseFailResult,
                { db with medicines := medsT, batches := batsT })
            | some (itemsT, itemCnt, errs₃) =>
              match importTableStage (fun x => x.id) (fun x => x)
                  (fun x => "Failed to import location: " ++ x.name)
                  b.locations db.locations errs₃ with
              | none =>
                (parseFailResult,
                  { db with
                      medicines := medsT
                      batches := batsT
                      items := itemsT })
              | some (locsT, locCnt, errs₄) =>
                match importTableStage (fun x => x.id) convImportedMovement
                    (fun x => "Failed to import movement: " ++ x.id)
                    b.movements db.movements errs₄ with
                | none =>
                  (parseFailResult,
                    { db with
                        medicines := medsT
                        batches := batsT
                        items := itemsT
                        locations := locsT })
                | some (movsT, movCnt, errs₅) =>
                  (mkImportResult errs₅
                    ⟨medCnt, batchCnt, itemCnt, locCnt, movCnt⟩,
                    ⟨medsT, batsT, itemsT, locsT, movsT⟩)
      | _ => (parseFailResult, db)
    else
      (mkImportResult [] ⟨0, 0, 0, 0, 0⟩, db)

/-- The parsed-JSON view of a serialized full export: version "1.0.0" is
    truthy, exportType is absent, and every table field is an array. -/
def rawOfBackup (bu : BackupData) : RawBackup :=
  { version := true, exportType := none,
    medicines := .array bu.medicines, batches := .array bu.batches,
    items := .array bu.items, locations := .array bu.locations,
    movements := .array bu.movements, data := .missing }

/-! ## Claim specification predicates and witness fixtures

Prop-valued abbreviations of the claims, stated over the definitions above,
plus the concrete fixtures the witness theorems instantiate them at. -/

/-- The C3 property at the given arguments: lockHeld exactly on a valid
    foreign lock, re-entrant same-session success without duplicates, expiry
    reclamation, and release followed by a successful acquire. -/
def LockContentionSpec (operation sidA sidB : String) (now : Int)
    (locks : LockTable) : Prop :=
  (acquireLock operation sidB now locks = .error (.lockHeld operation) ↔
    ∃ l, alookup locks operation = some l ∧ isLockValid now l = true ∧
      l.sessionId ≠ sidB) ∧
  (∀ l, alookup locks operation = some l → isLockValid now l = true →
    l.sessionId = sidB →
    acquireLock operation sidB now locks =
      .ok (mkLockId operation sidB now,
        ainsert (cleanupExpiredLocks now locks) operation
          ⟨mkLockId operation sidB now, operation, now, sidB⟩) ∧
    acount (ainsert (cleanupExpiredLocks now locks) operation
        ⟨mkLockId operation sidB now, operation, now, sidB⟩) operation = 1) ∧
  (∀ l, alookup locks operation = some l → isLockValid now l = false →
    exceptOk (acquireLock operation sidB now locks) = true) ∧
  (∀ l, alookup locks operation = some l → l.sessionId = sidA → sidA ≠ sidB →
    isLockValid now l = true →
    acquireLock operation sidB now locks = .error (.lockHeld operation) ∧
    releaseLock operation sidA locks = .ok (aerase locks operation) ∧
    exceptOk (acquireLock operation sidB now (aerase locks operation)) = true)

def lockTableA : LockTable :=
  [("seed-database",
    ⟨"seed-database-session-aaaaaa-0", "seed-database", 0, "session-aaaaaa"⟩)]

/-- The C10 property: the re-entrant acquire succeeds and stores a fresh lock
    whose id is newly minted and whose timestamp is the current time, the
    table keeps exactly one entry for the operation, and no other operation
    key gains entries. -/
def ReentrantAcquireSpec (operation sessionId : String) (now : Int)
    (locks : LockTable) : Prop :=
  acquireLock operation sessionId now locks =
    .ok (mkLockId operation sessionId now,
      ainsert (cleanupExpiredLocks now locks) operation
        ⟨mkLockId operation sessionId now, operation, now, sessionId⟩) ∧
  alookup (ainsert (cleanupExpiredLocks now locks) operation
      ⟨mkLockId operation sessionId now, operation, now, sessionId⟩) operation =
    some ⟨mkLockId operation sessionId now, operation, now, sessionId⟩ ∧
  acount (ainsert (cleanupExpiredLocks now locks) operation
      ⟨mkLockId operation sessionId now, operation, now, sessionId⟩) operation = 1 ∧
  (∀ k, k ≠ operation →
    acount (ainsert (cleanupExpiredLocks now locks) operation
        ⟨mkLockId operation sessionId now, operation, now, sessionId⟩) k ≤
      acount locks k)

def lockTableC : LockTable :=
  [("seed-database",
    ⟨"seed-database-session-cccccc-0", "seed-database", 0, "session-cccccc"⟩)]

/-- The C4 property: at the given arguments the acquire fails with
    resourceExhausted and returns the pool state unchanged; and, for all
    inputs, getConnection never grows the pool past maxConnections. -/
def PoolCapacitySpec (sessionId connId : String) (now : Int) (env : InitEnv)
    (st : PoolState) : Prop :=
  getConnection sessionId connId now env st = (.error .resourceExhausted, st) ∧
  ∀ (sid₁ cid₁ : String) (now₁ : Int) (env₁ : InitEnv) (st₁ : PoolState),
    st₁.connections.length ≤ maxConnections →
    ((getConnection sid₁ cid₁ now₁ env₁ st₁).2).connections.length ≤
      maxConnections

/-- A pool of ten valid connections for ten distinct sessions. -/
def fullPool : List (String × DatabaseConnection) :=
  [("session-00", ⟨"conn-00", true, 0, "session-00"⟩),
   ("session-01", ⟨"conn-01", true, 0, "session-01"⟩),
   ("session-02", ⟨"conn-02", true, 0, "session-02"⟩),
   ("session-03", ⟨"conn-03", true, 0, "session-03"⟩),
   ("session-04", ⟨"conn-04", true, 0, "session-04"⟩),
   ("session-05", ⟨"conn-05", true, 0, "session-05"⟩),
   ("session-06", ⟨"conn-06", true, 0, "session-06"⟩),
   ("session-07", ⟨"conn-07", true, 0, "session-07"⟩),
   ("session-08", ⟨"conn-08", true, 0, "session-08"⟩),
   ("session-09", ⟨"conn-09", true, 0, "session-09"⟩)]

/-- The amended C2 property: the failing initiating acquire surfaces
    connectionFailed, leaves no connection for the session in the pool, and
    clears the memoized initialization state, having invoked
    performInitialization exactly once more; an open that does not settle
    before the timer surfaces as the timeout message. -/
def InitFailureCleanupSpec (sessionId connId : String) (now : Int)
    (env : InitEnv) (st : PoolState) : Prop :=
  (getConnection sessionId connId now env st).1 =
    .error (.connectionFailed (initFailureMsg env)) ∧
  alookup ((getConnection sessionId connId now env st).2).connections
    sessionId = none ∧
  ((getConnection sessionId connId now env st).2).initDone = false ∧
  ((getConnection sessionId connId now env st).2).runs = st.runs + 1 ∧
  (openWithinTimeout env = false → env.indexedDBSupported = true →
    initFailureMsg env =
      "Database initialization failed: Database connection timeout")

/-- Trace fixture for the C2 counterexample: two concurrent first-time
    acquire calls share one failing initialization. -/
def cexPool0 : AsyncPoolState := ⟨[], none, none, 0, 0⟩

def cexPool1 : AsyncPoolState :=
  (syncAcquire "session-aaaa" "conn-a" 0 cexPool0).2

def cexPool2 : AsyncPoolState :=
  (syncAcquire "session-bbbb" "conn-b" 0 cexPool1).2

def cexPool3 : AsyncPoolState := resolveInit false cexPool2

def cexConnB : DatabaseConnection := ⟨"conn-b", false, 0, "session-bbbb"⟩

/-- The C1 property: across a batch of concurrent first-time acquire calls,
    performInitialization runs once when no initialization was in flight and
    not at all when one already was, every caller suspends on one and the
    same promise, and after settlement every caller observes the single
    shared outcome. -/
def BootstrapOnceSpec (mkConnId : String → String) (now : Int)
    (sids : List String) (st : AsyncPoolState) : Prop :=
  (runBatch mkConnId now sids st).2.runs =
    st.runs + (if st.initPromiseId.isNone ∧ sids ≠ [] then 1 else 0) ∧
  (∃ p : Nat, ∀ x ∈ (runBatch mkConnId now sids st).1, x.2 = some p) ∧
  (∀ ok : Bool, ∀ s ∈ sids,
    exceptOk (postAwait ok ⟨mkConnId s, false, now, s⟩
      (resolveInit ok (runBatch mkConnId now sids st).2)).1 = ok)

/-- The C7 property: validateBackupFile accepts only with version or
    exportType present, some medicine data present, and present
    medicines/batches fields being arrays; importDatabase rejects a missing
    version, and an input missing both medicines and data is rejected before
    any clear or write, leaving the database untouched. -/
def BackupGateSpec (b : RawBackup) (gen : Nat → String) (flag : Bool)
    (db : Db) : Prop :=
  ((validateBackupFile b).1 = true →
    (b.version = true ∨ b.exportType.isSome = true) ∧
    (b.medicines.truthy = true ∨ b.data.truthy = true) ∧
    (b.medicines.truthy = true → b.medicines.isArr = true) ∧
    (b.batches.truthy = true → b.batches.isArr = true)) ∧
  (b.version = false →
    importDatabase gen b flag db = (invalidFormatResult, db)) ∧
  (b.medicines.truthy = false → b.data.truthy = false →
    importDatabase gen b flag db = (invalidFormatResult, db))

/-- A backup file with neither medicines nor data. -/
def rawNoData : RawBackup :=
  ⟨true, none, .missing, .missing, .missing, .missing, .missing, .missing⟩

/-- A small concrete database. -/
def dbSample : Db :=
  ⟨[⟨"m1", "Aspirin", 10, 20⟩], [⟨"b1", "m1", "LOT1", 5, 1000, 0⟩],
   [⟨"i1", "b1", "m1", "available"⟩], [⟨"base-1", "Base"⟩], [⟨"mv1", 0⟩]⟩

/-- The C8 property: exporting a full backup and importing it into a freshly
    cleared store succeeds, with the imported counts equal to the counts
    recorded in the export metadata. -/
def RoundTripSpec (inc : Bool) (now : Int) (gen : Nat → String) (db : Db) :
    Prop :=
  (importDatabase gen (rawOfBackup (exportDatabase inc now db)) false
    emptyDb).1.success = true ∧
  (importDatabase gen (rawOfBackup (exportDatabase inc now db)) false
    emptyDb).1.imported =
    some ⟨(exportDatabase inc now db).metadata.medicineCount,
      (exportDatabase inc now db).metadata.batchCount,
      (exportDatabase inc now db).metadata.itemCount,
      (exportDatabase inc now db).metadata.locationCount,
      (exportDatabase inc now db).metadata.movementCount⟩

/-! ## Association-list lemmas -/

theorem alookup_aerase_self {α : Type} (l : List (String × α)) (k : String) :
    alookup (aerase l k) k = none := by
  induction l with
  | nil => rfl
  | cons p t ih =>
    obtain ⟨k₁, v⟩ := p
    by_cases h : k = k₁
    · simpa [aerase, h] using ih
    · simpa [aerase, alookup, h] using ih

theorem alookup_aerase_ne {α : Type} (l : List (String × α)) (k k₀ : String)
    (h : k₀ ≠ k) : alookup (aerase l k) k₀ = alookup l k₀ := by
  induction l with
  | nil => rfl
  | cons p t ih =>
    obtain ⟨k₁, v⟩ := p
    by_cases h₁ : k = k₁
    · subst h₁
      simpa [aerase, alookup, h] using ih
    · by_cases h₂ : k₀ = k₁ <;> simp [aerase, alookup, h₁, h₂, ih]

theorem aerase_of_alookup_none {α : Type} (l : List (String × α)) (k : String)
    (h : alookup l k = none) : aerase l k = l := by
  induction l with
  | nil => rfl
  | cons p t ih =>
    obtain ⟨k₁, v⟩ := p
    by_cases h₁ : k = k₁
    · simp [alookup, h₁] at h
    · simp [alookup, h₁] at h
      simp [aerase, h₁, ih h]

theorem alookup_ainsert_self {α : Type} (l : List (String × α)) (k : String) (v : α) :
    alookup (ainsert l k v) k = some v := by
  simp [ainsert, alookup]

theorem alookup_ainsert_ne {α : Type} (l : List (String × α)) (k k₀ : String) (v : α)
    (h : k₀ ≠ k) : alookup (ainsert l k v) k₀ = alookup l k₀ := by
  simp [ainsert, alookup, h, alookup_aerase_ne l k k₀ h]

theorem acount_aerase_self {α : Type} (l : List (String × α)) (k : String) :
    acount (aerase l k) k = 0 := by
  induction l with
  | nil => rfl
  | cons p t ih =>
    obtain ⟨k₁, v⟩ := p
    by_cases h : k = k₁
    · simpa [aerase, h] using ih
    · simpa [aerase, acount, h] using ih

theorem acount_aerase_le {α : Type} (l : List (String × α)) (k k₀ : String) :
    acount (aerase l k) k₀ ≤ acount l k₀ := by
  induction l with
  | nil => simp [aerase]
  | cons p t ih =>
    obtain ⟨k₁, v⟩ := p
    have hc : acount ((k₁, v) :: t) k₀ =
        (if k₀ = k₁ then 1 else 0) + acount t k₀ := rfl
    by_cases h : k = k₁
    · rw [show aerase ((k₁, v) :: t) k = aerase t k from by simp [aerase, h], hc]
      have := ih
      split <;> omega
    · rw [show aerase ((k₁, v) :: t) k = (k₁, v) :: aerase t k from by
          simp [aerase, h],
        show acount ((k₁, v) :: aerase t k) k₀ =
          (if k₀ = k₁ then 1 else 0) + acount (aerase t k) k₀ from rfl, hc]
      have := ih
      split <;> omega

theorem acount_ainsert_self {α : Type} (l : List (String × α)) (k : String) (v : α) :
    acount (ainsert l k v) k = 1 := by
  simp [ainsert, acount, acount_aerase_self]

theorem acount_ainsert_ne {α : Type} (l : List (String × α)) (k k₀ : String) (v : α)
    (h : k₀ ≠ k) : acount (ainsert l k v) k₀ ≤ acount l k₀ := by
  simpa [ainsert, acount, h] using acount_aerase_le l k k₀

theorem acount_filter_le {α : Type} (l : List (String × α)) (p : String × α → Bool)
    (k : String) : acount (l.filter p) k ≤ acount l k := by
  induction l with
  | nil => simp
  | cons q t ih =>
    obtain ⟨k₁, v⟩ := q
    have hc : acount ((k₁, v) :: t) k =
        (if k = k₁ then 1 else 0) + acount t k := rfl
    by_cases hp : p (k₁, v)
    · rw [show ((k₁, v) :: t).filter p = (k₁, v) :: t.filter p from by
          simp [List.filter, hp],
        show acount ((k₁, v) :: t.filter p) k =
          (if k = k₁ then 1 else 0) + acount (t.filter p) k from rfl, hc]
      have := ih
      split <;> omega
    · rw [show ((k₁, v) :: t).filter p = t.filter p from by
          simp [List.filter, hp], hc]
      have := ih
      split <;> omega

theorem length_aerase_le {α : Type} (l : List (String × α)) (k : String) :
    (aerase l k).length ≤ l.length := by
  induction l with
  | nil => simp [aerase]
  | cons p t ih =>
    obtain ⟨k₁, v⟩ := p
    by_cases h : k = k₁
    · rw [show aerase ((k₁, v) :: t) k = aerase t k from by simp [aerase, h]]
      simp only [List.length_cons]
      omega
    · rw [show aerase ((k₁, v) :: t) k = (k₁, v) :: aerase t k from by
          simp [aerase, h]]
      simp only [List.length_cons]
      omega

theorem length_aerase_lt {α : Type} (l : List (String × α)) (k : String) (v : α)
    (h : alookup l k = some v) : (aerase l k).length < l.length := by
  induction l with
  | nil => simp [alookup] at h
  | cons p t ih =>
    obtain ⟨k₁, w⟩ := p
    by_cases h₁ : k = k₁
    · rw [show aerase ((k₁, w) :: t) k = aerase t k from by simp [aerase, h₁]]
      have := length_aerase_le t k
      simp only [List.length_cons]
      omega
    · simp [alookup, h₁] at h
      rw [show aerase ((k₁, w) :: t) k = (k₁, w) :: aerase t k from by
          simp [aerase, h₁]]
      have := ih h
      simp only [List.length_cons]
      omega

theorem aerase_idem {α : Type} (l : List (String × α)) (k : String) :
    aerase (aerase l k) k = aerase l k :=
  aerase_of_alookup_none _ _ (alookup_aerase_self _ _)

theorem aerase_ainsert_self {α : Type} (l : List (String × α)) (k : String)
    (v : α) : aerase (ainsert l k v) k = aerase l k := by
  show aerase ((k, v) :: aerase l k) k = aerase l k
  rw [show aerase ((k, v) :: aerase l k) k = aerase (aerase l k) k from by
    simp [aerase]]
  exact aerase_idem l k

theorem length_ainsert {α : Type} (l : List (String × α)) (k : String) (v : α) :
    (ainsert l k v).length = (aerase l k).length + 1 := rfl

theorem length_cleanup_le (now : Int)
    (conns : List (String × DatabaseConnection)) :
    (cleanupExpiredConnections now conns).length ≤ conns.length :=
  List.length_filter_le _ _

/-- Every exit of acquireFresh keeps the pool within maxConnections. -/
theorem acquireFresh_length_le (sessionId connId : String) (now : Int)
    (env : InitEnv) (st : PoolState)
    (hlen : st.connections.length ≤ maxConnections) :
    ((acquireFresh sessionId connId now env st).2).connections.length ≤
      maxConnections := by
  have h₁ : (cleanupExpiredConnections now st.connections).length ≤
      st.connections.length := length_cleanup_le now st.connections
  have ha := length_aerase_le (cleanupExpiredConnections now st.connections)
    sessionId
  simp only [acquireFresh]
  split
  · exact le_trans h₁ hlen
  · next hcap =>
    have hlt : (cleanupExpiredConnections now st.connections).length <
        maxConnections := Nat.lt_of_not_le hcap
    split
    · show (ainsert (ainsert (cleanupExpiredConnections now st.connections)
          sessionId ⟨connId, false, now, sessionId⟩) sessionId
          ⟨connId, true, now, sessionId⟩).length ≤ maxConnections
      rw [length_ainsert, aerase_ainsert_self]
      omega
    · split
      · show (ainsert (ainsert (cleanupExpiredConnections now st.connections)
            sessionId ⟨connId, false, now, sessionId⟩) sessionId
            ⟨connId, true, now, sessionId⟩).length ≤ maxConnections
        rw [length_ainsert, aerase_ainsert_self]
        omega
      · show (aerase (ainsert (cleanupExpiredConnections now st.connections)
            sessionId ⟨connId, false, now, sessionId⟩) sessionId).length ≤
            maxConnections
        rw [aerase_ainsert_self]
        omega

/-- Every exit of getConnection keeps the pool within maxConnections. -/
theorem getConnection_length_le (sessionId connId : String) (now : Int)
    (env : InitEnv) (st : PoolState)
    (hlen : st.connections.length ≤ maxConnections) :
    ((getConnection sessionId connId now env st).2).connections.length ≤
      maxConnections := by
  simp only [getConnection]
  split
  · exact hlen
  · split
    · next c heq =>
      split
      · show (ainsert st.connections sessionId
            { c with lastActivity := now }).length ≤ maxConnections
        rw [length_ainsert]
        have := length_aerase_lt st.connections sessionId c heq
        omega
      · exact acquireFresh_length_le sessionId connId now env st hlen
    · exact acquireFresh_length_le sessionId connId now env st hlen

/-! ## Batch lemmas for the asynchronous model -/

theorem isConnectionValid_fresh (now : Int) (cid sid : String) :
    isConnectionValid now ⟨cid, false, now, sid⟩ = true := by
  simp only [isConnectionValid, decide_eq_true_eq, connectionTimeoutMs]
  omega

/-- A first-time caller that finds an in-flight promise joins it, and its
    only effect on the state is registering its fresh connection. -/
theorem syncAcquire_join (sid cid : String) (now : Int) (st : AsyncPoolState)
    (p : Nat)
    (hsid : validSessionId sid = true)
    (habs : alookup st.connections sid = none)
    (hvalid : ∀ q ∈ st.connections, isConnectionValid now q.2 = true)
    (hlen : st.connections.length < maxConnections)
    (hp : st.initPromiseId = some p) :
    syncAcquire sid cid now st =
      (some p,
        { st with connections :=
            (sid, ⟨cid, false, now, sid⟩) :: st.connections }) := by
  have hfilter : cleanupExpiredConnections now st.connections =
      st.connections := by
    unfold cleanupExpiredConnections
    exact List.filter_eq_self.mpr hvalid
  have hins : ainsert st.connections sid ⟨cid, false, now, sid⟩ =
      (sid, ⟨cid, false, now, sid⟩) :: st.connections := by
    unfold ainsert
    rw [aerase_of_alookup_none _ _ habs]
  simp [syncAcquire, hsid, habs, syncFresh, hfilter, Nat.not_le.mpr hlen, hp,
    hins]

/-- A first-time caller that finds no promise creates it, becoming the
    initiator, and performInitialization runs once more. -/
theorem syncAcquire_start (sid cid : String) (now : Int) (st : AsyncPoolState)
    (hsid : validSessionId sid = true)
    (habs : alookup st.connections sid = none)
    (hvalid : ∀ q ∈ st.connections, isConnectionValid now q.2 = true)
    (hlen : st.connections.length < maxConnections)
    (hp : st.initPromiseId = none) :
    syncAcquire sid cid now st =
      (some st.nextPromiseId,
        { connections := (sid, ⟨cid, false, now, sid⟩) :: st.connections,
          initPromiseId := some st.nextPromiseId, initiator := some sid,
          nextPromiseId := st.nextPromiseId + 1, runs := st.runs + 1 }) := by
  have hfilter : cleanupExpiredConnections now st.connections =
      st.connections := by
    unfold cleanupExpiredConnections
    exact List.filter_eq_self.mpr hvalid
  have hins : ainsert st.connections sid ⟨cid, false, now, sid⟩ =
      (sid, ⟨cid, false, now, sid⟩) :: st.connections := by
    unfold ainsert
    rw [aerase_of_alookup_none _ _ habs]
  simp [syncAcquire, hsid, habs, syncFresh, hfilter, Nat.not_le.mpr hlen, hp,
    hins]

/-- Folding a batch of first-time callers over a state with an in-flight
    promise: everyone joins that promise, performInitialization does not run
    again, every caller's fresh connection is registered and valid, and
    entries for other sessions are untouched. -/
theorem runBatch_joined (mkConnId : String → String) (now : Int)
    (sids : List String) (st : AsyncPoolState) (p : Nat)
    (hval : ∀ s ∈ sids, validSessionId s = true)
    (hnd : sids.Nodup)
    (habs : ∀ s ∈ sids, alookup st.connections s = none)
    (hvalid : ∀ q ∈ st.connections, isConnectionValid now q.2 = true)
    (hlen : st.connections.length + sids.length ≤ maxConnections)
    (hp : st.initPromiseId = some p) :
    (∀ x ∈ (runBatch mkConnId now sids st).1, x.2 = some p) ∧
    (runBatch mkConnId now sids st).2.runs = st.runs ∧
    (runBatch mkConnId now sids st).2.initPromiseId = some p ∧
    (∀ s ∈ sids, alookup (runBatch mkConnId now sids st).2.connections s =
      some ⟨mkConnId s, false, now, s⟩) ∧
    (∀ q ∈ (runBatch mkConnId now sids st).2.connections,
      isConnectionValid now q.2 = true) ∧
    (∀ s, s ∉ sids → alookup (runBatch mkConnId now sids st).2.connections s =
      alookup st.connections s) := by
  induction sids generalizing st with
  | nil =>
    refine ⟨by simp [runBatch], by simp [runBatch], by simp [runBatch, hp],
      by simp, ?_, by simp [runBatch]⟩
    intro q hq
    simpa [runBatch] using hvalid q (by simpa [runBatch] using hq)
  | cons sid rest ih =>
    obtain ⟨hsid, hvrest⟩ := List.forall_mem_cons.mp hval
    obtain ⟨hnotmem, hndrest⟩ := List.nodup_cons.mp hnd
    have hstep := syncAcquire_join sid (mkConnId sid) now st p hsid
      (habs sid (by simp)) hvalid (by simp at hlen; omega) hp
    set st' : AsyncPoolState :=
      { st with connections :=
          (sid, ⟨mkConnId sid, false, now, sid⟩) :: st.connections } with hst'
    have habs' : ∀ s ∈ rest, alookup st'.connections s = none := by
      intro s hs
      have hne : s ≠ sid := fun h => hnotmem (h ▸ hs)
      simp only [hst', alookup, if_neg hne]
      exact habs s (by simp [hs])
    have hvalid' : ∀ q ∈ st'.connections, isConnectionValid now q.2 = true := by
      intro q hq
      rcases List.mem_cons.mp hq with h | h
      · subst h
        exact isConnectionValid_fresh now (mkConnId sid) sid
      · exact hvalid q h
    have hlen' : st'.connections.length + rest.length ≤ maxConnections := by
      simp only [hst', List.length_cons]
      simp at hlen
      omega
    have hp' : st'.initPromiseId = some p := hp
    obtain ⟨ih₁, ih₂, ih₃, ih₄, ih₅, ih₆⟩ :=
      ih st' hvrest hndrest habs' hvalid' hlen' hp'
    have hrun : runBatch mkConnId now (sid :: rest) st =
        ((sid, some p) :: (runBatch mkConnId now rest st').1,
          (runBatch mkConnId now rest st').2) := by
      simp [runBatch, hstep]
    refine ⟨?_, ?_, ?_, ?_, ?_, ?_⟩
    · intro x hx
      rw [hrun] at hx
      rcases List.mem_cons.mp hx with h | h
      · rw [h]
      · exact ih₁ x h
    · rw [hrun]
      exact ih₂
    · rw [hrun]
      exact ih₃
    · intro s hs
      rw [hrun]
      rcases List.mem_cons.mp hs with h | h
      · subst h
        rw [ih₆ s hnotmem]
        simp [hst', alookup]
      · exact ih₄ s h
    · intro q hq
      rw [hrun] at hq
      exact ih₅ q hq
    · intro s hs
      rw [hrun]
      have hs₁ : s ∉ rest := fun h => hs (by simp [h])
      have hs₂ : s ≠ sid := fun h => hs (by simp [h])
      rw [ih₆ s hs₁]
      simp [hst', alookup, if_neg hs₂]

/-- Folding a nonempty batch of first-time callers over a state with no
    promise: the first caller creates the single promise and runs
    performInitialization exactly once; everyone suspends on that promise. -/
theorem runBatch_start (mkConnId : String → String) (now : Int)
    (sid : String) (rest : List String) (st : AsyncPoolState)
    (hval : ∀ s ∈ sid :: rest, validSessionId s = true)
    (hnd : (sid :: rest).Nodup)
    (habs : ∀ s ∈ sid :: rest, alookup st.connections s = none)
    (hvalid : ∀ q ∈ st.connections, isConnectionValid now q.2 = true)
    (hlen : st.connections.length + (sid :: rest).length ≤ maxConnections)
    (hp : st.initPromiseId = none) :
    (∀ x ∈ (runBatch mkConnId now (sid :: rest) st).1,
      x.2 = some st.nextPromiseId) ∧
    (runBatch mkConnId now (sid :: rest) st).2.runs = st.runs + 1 ∧
    (runBatch mkConnId now (sid :: rest) st).2.initPromiseId =
      some st.nextPromiseId ∧
    (∀ s ∈ sid :: rest,
      alookup (runBatch mkConnId now (sid :: rest) st).2.connections s =
        some ⟨mkConnId s, false, now, s⟩) ∧
    (∀ q ∈ (runBatch mkConnId now (sid :: rest) st).2.connections,
      isConnectionValid now q.2 = true) := by
  obtain ⟨hsid, hvrest⟩ := List.forall_mem_cons.mp hval
  obtain ⟨hnotmem, hndrest⟩ := List.nodup_cons.mp hnd
  have hstep := syncAcquire_start sid (mkConnId sid) now st hsid
    (habs sid (by simp)) hvalid (by simp at hlen; omega) hp
  set st' : AsyncPoolState :=
    { connections := (sid, ⟨mkConnId sid, false, now, sid⟩) :: st.connections,
      initPromiseId := some st.nextPromiseId, initiator := some sid,
      nextPromiseId := st.nextPromiseId + 1, runs := st.runs + 1 } with hst'
  have habs' : ∀ s ∈ rest, alookup st'.connections s = none := by
    intro s hs
    have hne : s ≠ sid := fun h => hnotmem (h ▸ hs)
    simp only [hst', alookup, if_neg hne]
    exact habs s (by simp [hs])
  have hvalid' : ∀ q ∈ st'.connections, isConnectionValid now q.2 = true := by
    intro q hq
    rcases List.mem_cons.mp hq with h | h
    · subst h
      exact isConnectionValid_fresh now (mkConnId sid) sid
    · exact hvalid q h
  have hlen' : st'.connections.length + rest.length ≤ maxConnections := by
    simp only [hst', List.length_cons]
    simp at hlen
    omega
  obtain ⟨ih₁, ih₂, ih₃, ih₄, ih₅, ih₆⟩ :=
    runBatch_joined mkConnId now rest st' st.nextPromiseId hvrest hndrest
      habs' hvalid' hlen' rfl
  have hrun : runBatch mkConnId now (sid :: rest) st =
      ((sid, some st.nextPromiseId) :: (runBatch mkConnId now rest st').1,
        (runBatch mkConnId now rest st').2) := by
    simp [runBatch, hstep]
  refine ⟨?_, ?_, ?_, ?_, ?_⟩
  · intro x hx
    rw [hrun] at hx
    rcases List.mem_cons.mp hx with h | h
    · rw [h]
    · exact ih₁ x h
  · rw [hrun]
    exact ih₂
  · rw [hrun]
    exact ih₃
  · intro s hs
    rw [hrun]
    rcases List.mem_cons.mp hs with h | h
    · subst h
      rw [ih₆ s hnotmem]
      simp [hst', alookup]
    · exact ih₄ s h
  · intro q hq
    rw [hrun] at hq
    exact ih₅ q hq

/-! ## Claim C3: lock contention characterization -/

/-- Claim C3: with valid arguments, acquireLock fails with lockHeld exactly
    when a non-expired lock on the operation is held by a different session;
    a re-acquire by the holding session succeeds without a duplicate entry, an
    expired lock is acquirable by a different session, and after the holder
    releases, a previously blocked session acquires successfully. -/
theorem lock_contention_characterization
    (operation sidA sidB : String) (now : Int) (locks : LockTable)
    (hop : validOperationName operation = true)
    (hA : validSessionId sidA = true)
    (hB : validSessionId sidB = true) :
    LockContentionSpec operation sidA sidB now locks := by
  refine ⟨?_, ?_, ?_, ?_⟩
  · cases hl : alookup locks operation with
    | none => simp [acquireLock, hop, hB, hl]
    | some l =>
      by_cases hv : isLockValid now l
      · by_cases hs : l.sessionId = sidB
        · simp [acquireLock, hop, hB, hl, hv, hs]
        · simp [acquireLock, hop, hB, hl, hv, hs]
      · simp [acquireLock, hop, hB, hl, hv]
  · intro l hl hv hs
    refine ⟨by simp [acquireLock, hop, hB, hl, hv, hs], ?_⟩
    exact acount_ainsert_self _ _ _
  · intro l hl hv
    simp [acquireLock, hop, hB, hl, hv, exceptOk]
  · intro l hl hsa hne hv
    refine ⟨by simp [acquireLock, hop, hB, hl, hv, hsa]; exact hne, ?_, ?_⟩
    · simp [releaseLock, hop, hA, hl, hsa]
    · simp [acquireLock, hop, hB, alookup_aerase_self, exceptOk]

theorem lock_contention_characterization_witness :
    validOperationName "seed-database" = true ∧
    validSessionId "session-aaaaaa" = true ∧
    validSessionId "session-bbbbbb" = true ∧
    LockContentionSpec "seed-database" "session-aaaaaa" "session-bbbbbb" 60000
      lockTableA :=
  ⟨by decide, by decide, by decide,
    lock_contention_characterization "seed-database" "session-aaaaaa"
      "session-bbbbbb" 60000 lockTableA (by decide) (by decide) (by decide)⟩

/-! ## Claim C10: re-entrant acquire overwrites the stored lock -/

/-- Claim C10: when the calling session already holds a valid lock on the
    operation, acquireLock succeeds and overwrites the stored lock with a
    fresh one (new id, timestamp equal to now), restarting the expiry window,
    while the table never holds more than one entry per operation name. -/
theorem reentrant_acquire_overwrites
    (operation sessionId : String) (now : Int) (locks : LockTable)
    (l : OperationLock)
    (hop : validOperationName operation = true)
    (hS : validSessionId sessionId = true)
    (hl : alookup locks operation = some l)
    (hv : isLockValid now l = true)
    (hsame : l.sessionId = sessionId) :
    ReentrantAcquireSpec operation sessionId now locks := by
  refine ⟨by simp [acquireLock, hop, hS, hl, hv, hsame], ?_, ?_, ?_⟩
  · exact alookup_ainsert_self _ _ _
  · exact acount_ainsert_self _ _ _
  · intro k hk
    calc acount (ainsert (cleanupExpiredLocks now locks) operation
            ⟨mkLockId operation sessionId now, operation, now, sessionId⟩) k
        ≤ acount (cleanupExpiredLocks now locks) k :=
          acount_ainsert_ne _ _ _ _ hk
      _ ≤ acount locks k := acount_filter_le _ _ _

theorem reentrant_acquire_overwrites_witness :
    validOperationName "seed-database" = true ∧
    validSessionId "session-cccccc" = true ∧
    alookup lockTableC "seed-database" =
      some ⟨"seed-database-session-cccccc-0", "seed-database", 0,
        "session-cccccc"⟩ ∧
    ReentrantAcquireSpec "seed-database" "session-cccccc" 1000 lockTableC :=
  ⟨by decide, by decide, by decide,
    reentrant_acquire_overwrites "seed-database" "session-cccccc" 1000
      lockTableC
      ⟨"seed-database-session-cccccc-0", "seed-database", 0, "session-cccccc"⟩
      (by decide) (by decide) (by decide) (by decide) (by decide)⟩

/-! ## Claim C1: the bootstrap runs exactly once pool-wide -/

/-- Claim C1: for any batch of concurrent first-time getConnection calls with
    distinct valid session ids (at most maxConnections of them) issued while
    a bootstrap is in flight or not yet started, performInitialization runs
    exactly once pool-wide beyond what was already in flight, all callers
    suspend on the single memoized promise, and each caller observes that one
    shared outcome. -/
theorem bootstrap_runs_once (mkConnId : String → String) (now : Int)
    (sids : List String) (st : AsyncPoolState)
    (hval : ∀ s ∈ sids, validSessionId s = true)
    (hnd : sids.Nodup)
    (hempty : st.connections = [])
    (hlen : sids.length ≤ maxConnections) :
    BootstrapOnceSpec mkConnId now sids st := by
  have habs : ∀ s ∈ sids, alookup st.connections s = none := by
    intro s _
    rw [hempty]
    rfl
  have hvalid : ∀ q ∈ st.connections, isConnectionValid now q.2 = true := by
    intro q hq
    rw [hempty] at hq
    simp at hq
  have hlen' : st.connections.length + sids.length ≤ maxConnections := by
    rw [hempty]
    simpa using hlen
  cases hp : st.initPromiseId with
  | some p =>
    obtain ⟨h₁, h₂, h₃, h₄, h₅, _⟩ :=
      runBatch_joined mkConnId now sids st p hval hnd habs hvalid hlen' hp
    refine ⟨?_, ⟨p, h₁⟩, ?_⟩
    · rw [h₂, hp]
      simp
    · intro ok s hs
      cases ok with
      | false => rfl
      | true =>
        have hlook := h₄ s hs
        simp [resolveInit, postAwait, hlook, exceptOk]
  | none =>
    cases sids with
    | nil =>
      refine ⟨by simp [runBatch], ⟨0, by simp [runBatch]⟩, by simp⟩
    | cons sid rest =>
      obtain ⟨h₁, h₂, h₃, h₄, h₅⟩ :=
        runBatch_start mkConnId now sid rest st hval hnd habs hvalid hlen' hp
      refine ⟨?_, ⟨st.nextPromiseId, h₁⟩, ?_⟩
      · rw [h₂, hp]
        simp
      · intro ok s hs
        cases ok with
        | false => rfl
        | true =>
          have hlook := h₄ s hs
          simp [resolveInit, postAwait, hlook, exceptOk]

theorem bootstrap_runs_once_witness :
    (∀ s ∈ ["session-aaaa", "session-bbbb"], validSessionId s = true) ∧
    (["session-aaaa", "session-bbbb"] : List String).Nodup ∧
    (["session-aaaa", "session-bbbb"] : List String).length ≤ maxConnections ∧
    BootstrapOnceSpec (fun s => String.append "conn-" s) 0
      ["session-aaaa", "session-bbbb"] ⟨[], none, none, 0, 0⟩ :=
  ⟨by decide, by decide, by decide,
    bootstrap_runs_once (fun s => String.append "conn-" s) 0
      ["session-aaaa", "session-bbbb"] ⟨[], none, none, 0, 0⟩ (by decide)
      (by decide) rfl (by decide)⟩

/-! ## Claim C4: pool capacity -/

/-- Claim C4: when the pool already tracks the maximum number of connections,
    all valid and for distinct sessions, an acquire with a new valid session
    id fails with resourceExhausted and leaves the pool state unchanged; and
    getConnection never grows the pool past the configured maximum. -/
theorem pool_capacity_resourceExhausted
    (sessionId connId : String) (now : Int) (env : InitEnv) (st : PoolState)
    (hsid : validSessionId sessionId = true)
    (habsent : alookup st.connections sessionId = none)
    (hvalid : ∀ p ∈ st.connections, isConnectionValid now p.2 = true)
    (hkeys : (st.connections.map Prod.fst).Nodup)
    (hfull : st.connections.length = maxConnections) :
    PoolCapacitySpec sessionId connId now env st := by
  constructor
  · have hfilter : cleanupExpiredConnections now st.connections =
        st.connections := by
      unfold cleanupExpiredConnections
      exact List.filter_eq_self.mpr hvalid
    simp [getConnection, hsid, habsent, acquireFresh, hfilter, hfull]
  · intro sid₁ cid₁ now₁ env₁ st₁ hlen
    exact getConnection_length_le sid₁ cid₁ now₁ env₁ st₁ hlen

theorem pool_capacity_resourceExhausted_witness :
    validSessionId "session-10" = true ∧
    alookup fullPool "session-10" = none ∧
    (∀ p ∈ fullPool, isConnectionValid 0 p.2 = true) ∧
    (fullPool.map Prod.fst).Nodup ∧
    fullPool.length = maxConnections ∧
    PoolCapacitySpec "session-10" "conn-new" 0 ⟨true, true, 0⟩
      ⟨fullPool, false, 0⟩ :=
  ⟨by decide, by decide, by decide, by decide, by decide,
    pool_capacity_resourceExhausted "session-10" "conn-new" 0 ⟨true, true, 0⟩
      ⟨fullPool, false, 0⟩ (by decide) (by decide) (by decide) (by decide)
      (by decide)⟩

/-! ## Claim C2 (corrected): initialization failure cleanup -/

/-- Claim C2, counterexample to the claim as stated: two concurrent
    first-time acquire calls; the second call creates a new connection and
    joins the single in-flight initialization; the initialization fails, the
    second call surfaces connectionFailed, yet its partially-created
    connection is NOT removed from the pool (only the initiator connection,
    captured by performInitialization, is deleted). -/
theorem joiner_connection_survives_failed_bootstrap :
    (syncAcquire "session-bbbb" "conn-b" 0 cexPool1).1 = some 0 ∧
    alookup cexPool2.connections "session-bbbb" = some cexConnB ∧
    cexPool2.runs = 1 ∧
    exceptOk (postAwait false cexConnB cexPool3).1 = false ∧
    alookup ((postAwait false cexConnB cexPool3).2).connections
      "session-bbbb" = some cexConnB ∧
    alookup cexPool3.connections "session-aaaa" = none ∧
    cexPool3.initPromiseId = none := by decide

/-- Claim C2 (amended): for the acquire call that creates a new connection
    and starts the initialization (none memoized or in flight), a failing or
    timed-out open surfaces as connectionFailed, that connection is removed
    from the pool before the error propagates, and the memoized state is
    cleared so a later acquire retries initialization from scratch. -/
theorem initiating_acquire_failure_cleanup
    (sessionId connId : String) (now : Int) (env : InitEnv) (st : PoolState)
    (hsid : validSessionId sessionId = true)
    (hno : ∀ c, alookup st.connections sessionId = some c →
      isConnectionValid now c = false)
    (hcap : (cleanupExpiredConnections now st.connections).length <
      maxConnections)
    (hinit : st.initDone = false)
    (hfail : initSucceeds env = false) :
    InitFailureCleanupSpec sessionId connId now env st := by
  have hfresh : getConnection sessionId connId now env st =
      acquireFresh sessionId connId now env st := by
    cases hl : alookup st.connections sessionId with
    | none => simp [getConnection, hsid, hl]
    | some c => simp [getConnection, hsid, hl, hno c hl]
  have hres : acquireFresh sessionId connId now env st =
      (.error (.connectionFailed (initFailureMsg env)),
        { connections := aerase (ainsert (cleanupExpiredConnections now
            st.connections) sessionId ⟨connId, false, now, sessionId⟩)
            sessionId,
          initDone := false, runs := st.runs + 1 }) := by
    simp [acquireFresh, hinit, hfail, Nat.not_le.mpr hcap]
  refine ⟨?_, ?_, ?_, ?_, ?_⟩
  · rw [hfresh, hres]
  · rw [hfresh, hres]
    show alookup (aerase (ainsert (cleanupExpiredConnections now
        st.connections) sessionId ⟨connId, false, now, sessionId⟩)
        sessionId) sessionId = none
    rw [aerase_ainsert_self]
    exact alookup_aerase_self _ _
  · rw [hfresh, hres]
  · rw [hfresh, hres]
  · intro h₁ h₂
    simp [initFailureMsg, h₁, h₂]

theorem initiating_acquire_failure_cleanup_witness :
    validSessionId "session-dddd" = true ∧
    (cleanupExpiredConnections 0 []).length < maxConnections ∧
    initSucceeds ⟨true, true, 20000⟩ = false ∧
    InitFailureCleanupSpec "session-dddd" "conn-d" 0 ⟨true, true, 20000⟩
      ⟨[], false, 0⟩ :=
  ⟨by decide, by decide, by decide,
    initiating_acquire_failure_cleanup "session-dddd" "conn-d" 0
      ⟨true, true, 20000⟩ ⟨[], false, 0⟩ (by decide)
      (by intro c h; simp [alookup] at h) (by decide) rfl (by decide)⟩

/-! ## Claim C5: expiry classification is total -/

/-- Claim C5: expiry classification is a total function of the expiry date
    and now: an absent date is good with the unbounded sentinel; otherwise,
    with days-until-expiry derived from date and now, the status is expired
    iff days-until is negative, critical iff 0..30, warning iff 31..60 and
    good iff at least 61; one day in the past gives expired, 30 days ahead
    critical, 45 days ahead warning, 90 days ahead good. -/
theorem expiry_classification_total (e now : Int) :
    (getExpiryStatus none now).status = .good ∧
    (getExpiryStatus none now).daysUntilExpiry = .unbounded ∧
    (getExpiryStatus (some e) now).daysUntilExpiry =
      .days (daysBetween e now) ∧
    ((getExpiryStatus (some e) now).status = .expired ↔
      daysBetween e now < 0) ∧
    ((getExpiryStatus (some e) now).status = .critical ↔
      0 ≤ daysBetween e now ∧ daysBetween e now ≤ 30) ∧
    ((getExpiryStatus (some e) now).status = .warning ↔
      31 ≤ daysBetween e now ∧ daysBetween e now ≤ 60) ∧
    ((getExpiryStatus (some e) now).status = .good ↔
      61 ≤ daysBetween e now) ∧
    (getExpiryStatus (some (now - msPerDay)) now).status = .expired ∧
    (getExpiryStatus (some (now + 30 * msPerDay)) now).status = .critical ∧
    (getExpiryStatus (some (now + 45 * msPerDay)) now).status = .warning ∧
    (getExpiryStatus (some (now + 90 * msPerDay)) now).status = .good := by
  have hstat : ∀ x : Int, (getExpiryStatus (some x) now).status =
      (if daysBetween x now < 0 then ExpiryTag.expired
       else if daysBetween x now ≤ 30 then ExpiryTag.critical
       else if daysBetween x now ≤ 60 then ExpiryTag.warning
       else ExpiryTag.good) := by
    intro x
    simp only [getExpiryStatus]
    split_ifs <;> rfl
  have hdays : (getExpiryStatus (some e) now).daysUntilExpiry =
      .days (daysBetween e now) := by
    simp only [getExpiryStatus]
    split_ifs <;> rfl
  have hshift : ∀ k : Int, daysBetween (now + k * msPerDay) now = k := by
    intro k
    unfold daysBetween
    rw [show now + k * msPerDay - now = k * msPerDay from by ring]
    exact Int.mul_fdiv_cancel _ (by norm_num [msPerDay])
  have hneg : daysBetween (now - msPerDay) now = -1 := by
    rw [show now - msPerDay = now + (-1) * msPerDay from by ring]
    exact hshift (-1)
  refine ⟨rfl, rfl, hdays, ?_, ?_, ?_, ?_, ?_, ?_, ?_, ?_⟩
  · rw [hstat e]
    split_ifs with h₁ h₂ h₃ <;> simp <;> omega
  · rw [hstat e]
    split_ifs with h₁ h₂ h₃ <;> simp <;> omega
  · rw [hstat e]
    split_ifs with h₁ h₂ h₃ <;> simp <;> omega
  · rw [hstat e]
    split_ifs with h₁ h₂ h₃ <;> simp <;> omega
  · rw [hstat (now - msPerDay), hneg]
    norm_num
  · rw [hstat (now + 30 * msPerDay), hshift 30]
    norm_num
  · rw [hstat (now + 45 * msPerDay), hshift 45]
    norm_num
  · rw [hstat (now + 90 * msPerDay), hshift 90]
    norm_num

/-! ## Claim C6 (corrected): the two stock call sites disagree -/

/-- Claim C6, counterexample to the claim as stated: at the report call site,
    current 12 with min 10 and max 20 is labelled low although the claimed
    thresholds put it at ok (it is neither at most min nor above max); and at
    the kit call site, current 2 with min 10 and max 1 is labelled critical
    although current exceeds max, where the claim requires excess. -/
theorem stock_status_call_sites_differ :
    reportStockStatus 12 10 = .low ∧
    ¬ ((10 : ℚ) * (0.5 : ℚ) < 12 ∧ (12 : ℚ) ≤ 10) ∧
    ¬ ((12 : ℚ) > 20) ∧
    kitStockStatus 2 10 1 = .critical ∧
    (2 : ℚ) > 1 := by
  refine ⟨?_, by norm_num, by norm_num, ?_, by norm_num⟩
  · unfold reportStockStatus
    norm_num
  · unfold kitStockStatus
    norm_num

/-- Exact guard semantics of the kit-page status chain. -/
theorem kitStockStatus_cases (c mn mx : ℚ) :
    (kitStockStatus c mn mx = .critical ↔ c ≤ mn * (0.5 : ℚ)) ∧
    (kitStockStatus c mn mx = .low ↔ mn * (0.5 : ℚ) < c ∧ c ≤ mn) ∧
    (kitStockStatus c mn mx = .excess ↔
      mn * (0.5 : ℚ) < c ∧ mn < c ∧ mx < c) ∧
    (kitStockStatus c mn mx = .ok ↔
      mn * (0.5 : ℚ) < c ∧ mn < c ∧ c ≤ mx) := by
  unfold kitStockStatus
  by_cases h₁ : c ≤ mn * (0.5 : ℚ)
  · rw [if_pos h₁]
    exact ⟨iff_of_true rfl h₁,
      iff_of_false (by simp) (by rintro ⟨hx, _⟩; linarith),
      iff_of_false (by simp) (by rintro ⟨hx, _, _⟩; linarith),
      iff_of_false (by simp) (by rintro ⟨hx, _, _⟩; linarith)⟩
  · rw [if_neg h₁]
    by_cases h₂ : c ≤ mn
    · rw [if_pos h₂]
      exact ⟨iff_of_false (by simp) (by intro hx; linarith),
        iff_of_true rfl ⟨not_le.mp h₁, h₂⟩,
        iff_of_false (by simp) (by rintro ⟨_, hy, _⟩; linarith),
        iff_of_false (by simp) (by rintro ⟨_, hy, _⟩; linarith)⟩
    · rw [if_neg h₂]
      by_cases h₃ : c > mx
      · rw [if_pos h₃]
        exact ⟨iff_of_false (by simp) (by intro hx; linarith),
          iff_of_false (by simp) (by rintro ⟨_, hy⟩; linarith),
          iff_of_true rfl ⟨not_le.mp h₁, not_le.mp h₂, h₃⟩,
          iff_of_false (by simp) (by rintro ⟨_, _, hz⟩; linarith)⟩
      · rw [if_neg h₃]
        exact ⟨iff_of_false (by simp) (by intro hx; linarith),
          iff_of_false (by simp) (by rintro ⟨_, hy⟩; linarith),
          iff_of_false (by simp)
            (by rintro ⟨_, _, hz⟩; exact absurd hz h₃),
          iff_of_true rfl ⟨not_le.mp h₁, not_le.mp h₂, not_lt.mp h₃⟩⟩

/-- Exact guard semantics of the report status chain. -/
theorem reportStockStatus_cases (c mn : ℚ) :
    (reportStockStatus c mn = .outOfStock ↔ c = 0) ∧
    (reportStockStatus c mn = .critical ↔ c ≠ 0 ∧ c < mn) ∧
    (reportStockStatus c mn = .low ↔
      c ≠ 0 ∧ mn ≤ c ∧ c < mn * (1.5 : ℚ)) ∧
    (reportStockStatus c mn = .good ↔
      c ≠ 0 ∧ mn ≤ c ∧ mn * (1.5 : ℚ) ≤ c) := by
  unfold reportStockStatus
  by_cases h₁ : c = 0
  · rw [if_pos h₁]
    exact ⟨iff_of_true rfl h₁,
      iff_of_false (by simp) (by rintro ⟨hx, _⟩; exact hx h₁),
      iff_of_false (by simp) (by rintro ⟨hx, _, _⟩; exact hx h₁),
      iff_of_false (by simp) (by rintro ⟨hx, _, _⟩; exact hx h₁)⟩
  · rw [if_neg h₁]
    by_cases h₂ : c < mn
    · rw [if_pos h₂]
      exact ⟨iff_of_false (by simp) h₁,
        iff_of_true rfl ⟨h₁, h₂⟩,
        iff_of_false (by simp) (by rintro ⟨_, hy, _⟩; linarith),
        iff_of_false (by simp) (by rintro ⟨_, hy, _⟩; linarith)⟩
    · rw [if_neg h₂]
      by_cases h₃ : c < mn * (1.5 : ℚ)
      · rw [if_pos h₃]
        exact ⟨iff_of_false (by simp) h₁,
          iff_of_false (by simp) (by rintro ⟨_, hy⟩; linarith),
          iff_of_true rfl ⟨h₁, not_lt.mp h₂, h₃⟩,
          iff_of_false (by simp) (by rintro ⟨_, _, hz⟩; linarith)⟩
      · rw [if_neg h₃]
        exact ⟨iff_of_false (by simp) h₁,
          iff_of_false (by simp) (by rintro ⟨_, hy⟩; linarith),
          iff_of_false (by simp) (by rintro ⟨_, _, hz⟩; linarith),
          iff_of_true rfl ⟨h₁, not_lt.mp h₂, not_lt.mp h₃⟩⟩

/-- Claim C6 (amended): the two stock-status call sites use different
    boundary semantics.  The kit-page site: critical iff current is at most
    half of min; low iff strictly above half of min and at most min; excess
    iff strictly above half of min, above min and above max; ok iff strictly
    above half of min, above min and at most max.  The report site has no
    excess label and ignores max: out of stock iff current is zero; critical
    iff nonzero and strictly below min; low iff nonzero, at least min and
    strictly below 1.5 times min; good iff nonzero, at least min and at
    least 1.5 times min. -/
theorem stock_status_both_call_sites (c mn mx : ℚ) :
    ((kitStockStatus c mn mx = .critical ↔ c ≤ mn * (0.5 : ℚ)) ∧
    (kitStockStatus c mn mx = .low ↔ mn * (0.5 : ℚ) < c ∧ c ≤ mn) ∧
    (kitStockStatus c mn mx = .excess ↔
      mn * (0.5 : ℚ) < c ∧ mn < c ∧ mx < c) ∧
    (kitStockStatus c mn mx = .ok ↔
      mn * (0.5 : ℚ) < c ∧ mn < c ∧ c ≤ mx)) ∧
    ((reportStockStatus c mn = .outOfStock ↔ c = 0) ∧
    (reportStockStatus c mn = .critical ↔ c ≠ 0 ∧ c < mn) ∧
    (reportStockStatus c mn = .low ↔
      c ≠ 0 ∧ mn ≤ c ∧ c < mn * (1.5 : ℚ)) ∧
    (reportStockStatus c mn = .good ↔
      c ≠ 0 ∧ mn ≤ c ∧ mn * (1.5 : ℚ) ≤ c)) :=
  ⟨kitStockStatus_cases c mn mx, reportStockStatus_cases c mn⟩

/-! ## Claim C9: the read helpers are deterministic pure functions -/

/-- Claim C9: the expiry classification, both stock classifications, the
    stock-level rows, the nearest-expiry computation and the
    expiring-medicines computation are deterministic functions of their
    inputs and the supplied now: equal inputs and equal now give equal
    results. -/
theorem read_helpers_deterministic
    (e₁ e₂ : Option Int) (n₁ n₂ : Int) (c₁ c₂ mn₁ mn₂ mx₁ mx₂ : ℚ)
    (ms₁ ms₂ : List MedicineR) (bs₁ bs₂ : List BatchR)
    (it₁ it₂ : List ItemR) (d₁ d₂ : Int)
    (he : e₁ = e₂) (hn : n₁ = n₂) (hc : c₁ = c₂) (hmn : mn₁ = mn₂)
    (hmx : mx₁ = mx₂) (hms : ms₁ = ms₂) (hbs : bs₁ = bs₂) (hit : it₁ = it₂)
    (hd : d₁ = d₂) :
    getExpiryStatus e₁ n₁ = getExpiryStatus e₂ n₂ ∧
    kitStockStatus c₁ mn₁ mx₁ = kitStockStatus c₂ mn₂ mx₂ ∧
    reportStockStatus c₁ mn₁ = reportStockStatus c₂ mn₂ ∧
    getStockLevels ms₁ it₁ = getStockLevels ms₂ it₂ ∧
    generateStockLevelRows ms₁ bs₁ = generateStockLevelRows ms₂ bs₂ ∧
    nearestExpiry bs₁ = nearestExpiry bs₂ ∧
    getExpiringMedicines ms₁ bs₁ it₁ d₁ n₁ =
      getExpiringMedicines ms₂ bs₂ it₂ d₂ n₂ := by
  subst he hn hc hmn hmx hms hbs hit hd
  exact ⟨rfl, rfl, rfl, rfl, rfl, rfl, rfl⟩

theorem read_helpers_deterministic_witness :
    getExpiryStatus (some 0) 0 = getExpiryStatus (some 0) 0 ∧
    kitStockStatus 1 2 3 = kitStockStatus 1 2 3 ∧
    reportStockStatus 1 2 = reportStockStatus 1 2 ∧
    getStockLevels [] [] = getStockLevels [] [] ∧
    generateStockLevelRows [] [] = generateStockLevelRows [] [] ∧
    nearestExpiry [] = nearestExpiry [] ∧
    getExpiringMedicines [] [] [] 60 0 = getExpiringMedicines [] [] [] 60 0 :=
  read_helpers_deterministic (some 0) (some 0) 0 0 1 1 2 2 3 3 [] [] [] []
    [] [] 60 60 rfl rfl rfl rfl rfl rfl rfl rfl rfl

/-! ## Import lemmas -/

theorem convImportedBatch_eq (b : BatchR) : convImportedBatch b = b := rfl

theorem convImportedMovement_eq (m : MovementR) :
    convImportedMovement m = m := rfl

theorem map_convImportedBatch (l : List BatchR) :
    l.map convImportedBatch = l := by
  induction l with
  | nil => rfl
  | cons b t ih => simp [convImportedBatch_eq, ih]

theorem map_convImportedMovement (l : List MovementR) :
    l.map convImportedMovement = l := by
  induction l with
  | nil => rfl
  | cons m t ih => simp [convImportedMovement_eq, ih]

/-- With pairwise-distinct keys disjoint from the target table, every add of
    the loop succeeds: the records are appended in order, the count is the
    batch size, and no error is collected. -/
theorem importLoop_clean {α β : Type} (key : β → String) (conv : α → β)
    (errMsg : α → String) (xs : List α) (t : List β) (cnt : Nat)
    (errs : List String)
    (hnd : (xs.map (fun x => key (conv x))).Nodup)
    (hdis : ∀ x ∈ xs, ∀ y ∈ t, key y ≠ key (conv x)) :
    importLoop key conv errMsg xs t cnt errs =
      (t ++ xs.map conv, cnt + xs.length, errs) := by
  induction xs generalizing t cnt with
  | nil => simp [importLoop]
  | cons x rest ih =>
    have hadd : tableAdd key t (conv x) = some (t ++ [conv x]) := by
      unfold tableAdd
      rw [if_neg]
      simp only [List.any_eq_true, beq_iff_eq, not_exists, not_and]
      intro y hy
      exact hdis x (by simp) y hy
    have hnd' : (rest.map (fun x => key (conv x))).Nodup :=
      (List.nodup_cons.mp (by simpa using hnd)).2
    have hmem : key (conv x) ∉ rest.map (fun x => key (conv x)) :=
      (List.nodup_cons.mp (by simpa using hnd)).1
    have hdis' : ∀ x' ∈ rest, ∀ y ∈ t ++ [conv x],
        key y ≠ key (conv x') := by
      intro x' hx' y hy
      rcases List.mem_append.mp hy with h | h
      · exact hdis x' (by simp [hx']) y h
      · simp only [List.mem_singleton] at h
        subst h
        intro he
        exact hmem (he ▸ List.mem_map_of_mem _ hx')
    rw [show importLoop key conv errMsg (x :: rest) t cnt errs =
        (match tableAdd key t (conv x) with
          | some t' => importLoop key conv errMsg rest t' (cnt + 1) errs
          | none => importLoop key conv errMsg rest t cnt
              (errs ++ [errMsg x])) from rfl, hadd]
    show importLoop key conv errMsg rest (t ++ [conv x]) (cnt + 1) errs = _
    rw [ih (t ++ [conv x]) (cnt + 1) hnd' hdis']
    simp only [List.map_cons, List.append_assoc, List.singleton_append,
      List.length_cons, Prod.mk.injEq]
    exact ⟨trivial, by omega, trivial⟩

/-- The array stage of the full-format import under the same conditions. -/
theorem importTableStage_clean {α β : Type} (key : β → String)
    (conv : α → β) (errMsg : α → String) (xs : List α) (t : List β)
    (errs : List String)
    (hnd : (xs.map (fun x => key (conv x))).Nodup)
    (hdis : ∀ x ∈ xs, ∀ y ∈ t, key y ≠ key (conv x)) :
    importTableStage key conv errMsg (.array xs) t errs =
      some (t ++ xs.map conv, xs.length, errs) := by
  show some (importLoop key conv errMsg xs t 0 errs) = _
  rw [importLoop_clean key conv errMsg xs t 0 errs hnd hdis, Nat.zero_add]

/-- A full-format export imported into an empty store: every record lands,
    the counts are the table sizes, and no error is collected. -/
theorem importDatabase_full_clean (gen : Nat → String) (bu : BackupData)
    (h₁ : (bu.medicines.map (fun m => m.id)).Nodup)
    (h₂ : (bu.batches.map (fun b => b.id)).Nodup)
    (h₃ : (bu.items.map (fun i => i.id)).Nodup)
    (h₄ : (bu.locations.map (fun l => l.id)).Nodup)
    (h₅ : (bu.movements.map (fun m => m.id)).Nodup) :
    importDatabase gen (rawOfBackup bu) false emptyDb =
      (mkImportResult []
        ⟨bu.medicines.length, bu.batches.length, bu.items.length,
          bu.locations.length, bu.movements.length⟩,
        ⟨bu.medicines, bu.batches, bu.items, bu.locations,
          bu.movements⟩) := by
  have hm := importLoop_clean (fun m : MedicineR => m.id) (fun m => m)
    (fun m => "Failed to import medicine: " ++ m.name) bu.medicines
    ([] : List MedicineR) 0 [] (by simpa using h₁) (by simp)
  have hb := importTableStage_clean (fun x : BatchR => x.id)
    convImportedBatch (fun x => "Failed to import batch: " ++ x.lotNumber)
    bu.batches ([] : List BatchR) [] (by simpa using h₂) (by simp)
  have hi := importTableStage_clean (fun x : ItemR => x.id) (fun x => x)
    (fun x => "Failed to import item: " ++ x.id) bu.items
    ([] : List ItemR) [] (by simpa using h₃) (by simp)
  have hl := importTableStage_clean (fun x : LocationR => x.id) (fun x => x)
    (fun x => "Failed to import location: " ++ x.name) bu.locations
    ([] : List LocationR) [] (by simpa using h₄) (by simp)
  have hv := importTableStage_clean (fun x : MovementR => x.id)
    convImportedMovement (fun x => "Failed to import movement: " ++ x.id)
    bu.movements ([] : List MovementR) [] (by simpa using h₅) (by simp)
  unfold importDatabase
  simp [rawOfBackup, JsonField.truthy, hm, hb, hi, hl, hv,
    map_convImportedBatch, map_convImportedMovement, mkImportResult, emptyDb]

/-! ## Claim C7: import validation gate -/

/-- Claim C7: a backup file is accepted only if it has version or exportType
    and has medicine data (medicines or data present, with present
    medicines/batches fields arrays); importDatabase rejects a file without
    version, and a file missing both medicines and data is rejected with no
    clear and no writes. -/
theorem backup_validation_gate (b : RawBackup) (gen : Nat → String)
    (flag : Bool) (db : Db) : BackupGateSpec b gen flag db := by
  refine ⟨?_, ?_, ?_⟩
  · intro hval
    obtain ⟨version, exportType, medicines, batches, items, locations,
      movements, data⟩ := b
    cases version <;> cases exportType <;> cases medicines <;>
      cases batches <;> cases data <;>
      simp_all [validateBackupFile, JsonField.truthy, JsonField.isArr]
  · intro hv
    unfold importDatabase
    rw [if_pos]
    simp [hv]
  · intro h₁ h₂
    unfold importDatabase
    rw [if_pos]
    simp [h₁, h₂]

theorem backup_validation_gate_witness :
    rawNoData.medicines.truthy = false ∧
    rawNoData.data.truthy = false ∧
    importDatabase (fun n => "gen-" ++ toString n) rawNoData true dbSample =
      (invalidFormatResult, dbSample) :=
  ⟨by decide, by decide,
    (backup_validation_gate rawNoData (fun n => "gen-" ++ toString n) true
      dbSample).2.2 (by decide) (by decide)⟩

/-! ## Claim C8: export/import round trip -/

/-- Claim C8: for every database state with per-table unique primary keys,
    exporting a full backup and importing it into a freshly cleared store
    succeeds, with imported medicine and batch counts (and the other table
    counts) equal to the counts recorded in the export metadata. -/
theorem export_import_roundtrip (inc : Bool) (now : Int)
    (gen : Nat → String) (db : Db)
    (h₁ : (db.medicines.map (fun m => m.id)).Nodup)
    (h₂ : (db.batches.map (fun b => b.id)).Nodup)
    (h₃ : (db.items.map (fun i => i.id)).Nodup)
    (h₄ : (db.locations.map (fun l => l.id)).Nodup)
    (h₅ : (db.movements.map (fun m => m.id)).Nodup) :
    RoundTripSpec inc now gen db := by
  have h₅' : (((exportDatabase inc now db).movements).map
      (fun m => m.id)).Nodup := by
    cases inc <;> simp [exportDatabase] <;> simpa using h₅
  have hclean := importDatabase_full_clean gen (exportDatabase inc now db)
    (by simpa [exportDatabase] using h₁) (by simpa [exportDatabase] using h₂)
    (by simpa [exportDatabase] using h₃) (by simpa [exportDatabase] using h₄)
    h₅'
  constructor
  · rw [hclean]
    rfl
  · rw [hclean]
    cases inc <;> rfl

theorem export_import_roundtrip_witness :
    (dbSample.medicines.map (fun m => m.id)).Nodup ∧
    (dbSample.batches.map (fun b => b.id)).Nodup ∧
    (dbSample.items.map (fun i => i.id)).Nodup ∧
    (dbSample.locations.map (fun l => l.id)).Nodup ∧
    (dbSample.movements.map (fun m => m.id)).Nodup ∧
    RoundTripSpec true 0 (fun n => "gen-" ++ toString n) dbSample :=
  ⟨by decide, by decide, by decide, by decide, by decide,
    export_import_roundtrip true 0 (fun n => "gen-" ++ toString n) dbSample
      (by decide) (by decide) (by decide) (by decide) (by decide)⟩

end MrtMeds
